import Mathlib

/-!
Shallow embedding of the pool pricing engine of `src/api/pool/Pool.ts`
(constant-product AMM model).  Balances, amounts and the fee ratio are
modelled as exact rationals (`ℚ`); the source's `Math.ceil` / `Math.floor`
become `Int.ceil` / `Int.floor`; the source's `assert` on the input token
becomes an `Except` error.
-/

/-- Modelled from the spec: an opaque ledger address.  The `PublicKey` class of
the external `@solana/web3.js` library is not part of the repository; per
spec §3 the address fields are "opaque pass-through data required only to
round-trip a snapshot", so a public key is an opaque identifier. -/
structure PublicKey where
  key : Nat
deriving DecidableEq

/-- Modelled from the spec: base58 rendering of a public key, used by
`Pool.serialize`.  Only its round-trip behaviour matters (spec §1, §3). -/
def PublicKey.toBase58 (p : PublicKey) : Nat :=
  p.key

/-- Modelled from the spec: the `new PublicKey(base58)` constructor used by
`Pool.from`, inverse of `PublicKey.toBase58`. -/
def PublicKey.ofBase58 (s : Nat) : PublicKey :=
  ⟨s⟩

/-- Modelled from the spec: an asset identifier.  The `Token` class
(`src/api/token/Token.ts`) is not under `src/`; per spec §6 the core uses
tokens only as "opaque asset identifiers ... used only for equality
comparison". -/
structure Token where
  address : Nat
deriving DecidableEq

/-- Modelled from the spec: `Token.equals`, the equality comparison on
asset identifiers (spec §6). -/
def Token.equals (a b : Token) : Bool :=
  a.address == b.address

/-- Modelled from the spec: a token account as used by `Pool.ts`, a mint
(asset identifier) and a balance.  `TokenAccount.ts` is not under `src/`;
`Pool.ts` reads exactly `mint` and `balance` from it, and spec §6 says a
reserve side is a balance plus an opaque asset identifier. -/
structure TokenAccount where
  mint : Token
  balance : ℚ
deriving DecidableEq

/-- The pool snapshot, after the fields of `class Pool` in `Pool.ts`
(lines 18-44). -/
structure Pool where
  address : PublicKey
  tokenA : TokenAccount
  tokenB : TokenAccount
  poolToken : Token
  programId : PublicKey
  nonce : Nat
  feeRatio : ℚ
deriving DecidableEq

/-- Failure of the swap computation.  The only check in
`calculateAmountInOtherToken` is the `assert` on the input token
(`Pool.ts` lines 68-72); its failure is modelled as this error. -/
inductive PoolError where
  | InvalidAsset
deriving DecidableEq

/-- Function `simpleRate` of `Pool.ts` lines 46-50:
`tokenA.balance > 0 ? tokenB.balance / tokenA.balance : 0`. -/
def Pool.simpleRate (p : Pool) : ℚ :=
  if 0 < p.tokenA.balance then p.tokenB.balance / p.tokenA.balance else 0

/-- The gross (pre-fee) output amount computed inside
`calculateAmountInOtherToken` (`Pool.ts` lines 80-84), with the source's
local names. -/
def grossToAmount (fromAmountInPool toAmountInPool inputAmount : ℚ) : ℤ :=
  let invariant := fromAmountInPool * toAmountInPool
  let newFromAmountInPool := fromAmountInPool + inputAmount
  let newToAmountInPool := invariant / newFromAmountInPool
  ⌈toAmountInPool - newToAmountInPool⌉

/-- The net (post-fee) output amount computed by
`calculateAmountInOtherToken` (`Pool.ts` lines 85-86):
`fees = Math.floor(grossToAmount * feeRatio)`, result
`grossToAmount - fees`. -/
def netToAmount (fromAmountInPool toAmountInPool feeRatio inputAmount : ℚ) : ℤ :=
  let grossAmount := grossToAmount fromAmountInPool toAmountInPool inputAmount
  let fees := ⌊(grossAmount : ℚ) * feeRatio⌋
  grossAmount - fees

/-- Function `calculateAmountInOtherToken` of `Pool.ts` lines 64-87.  The `assert`
that the input token is pool token A or B becomes the `InvalidAsset`
error; direction, reserve selection and the arithmetic follow the source
line by line. -/
def Pool.calculateAmountInOtherToken (p : Pool) (inputToken : Token)
    (inputAmount : ℚ) : Except PoolError ℤ :=
  if inputToken.equals p.tokenA.mint || inputToken.equals p.tokenB.mint then
    let isReverse := p.tokenB.mint.equals inputToken
    let fromAmountInPool := if isReverse then p.tokenB.balance else p.tokenA.balance
    let toAmountInPool := if isReverse then p.tokenA.balance else p.tokenB.balance
    Except.ok (netToAmount fromAmountInPool toAmountInPool p.feeRatio inputAmount)
  else
    Except.error PoolError.InvalidAsset

/-- Function `calculateTokenAAmount` of `Pool.ts` lines 89-90. -/
def Pool.calculateTokenAAmount (p : Pool) (tokenBAmount : ℚ) : Except PoolError ℤ :=
  p.calculateAmountInOtherToken p.tokenB.mint tokenBAmount

/-- Function `calculateTokenBAmount` of `Pool.ts` lines 91-92. -/
def Pool.calculateTokenBAmount (p : Pool) (tokenAAmount : ℚ) : Except PoolError ℤ :=
  p.calculateAmountInOtherToken p.tokenA.mint tokenAAmount

/-- Function `getTokenAValueOfPoolTokenAmount` of `Pool.ts` lines 103-106 (identity). -/
def Pool.getTokenAValueOfPoolTokenAmount (p : Pool) (poolTokenAmount : ℚ) : ℚ :=
  poolTokenAmount

/-- Function `getTokenBValueOfPoolTokenAmount` of `Pool.ts` lines 108-112. -/
def Pool.getTokenBValueOfPoolTokenAmount (p : Pool) (poolTokenAmount : ℚ) :
    Except PoolError ℤ :=
  p.calculateTokenBAmount (p.getTokenAValueOfPoolTokenAmount poolTokenAmount)

/-- Function `getPoolTokenValueOfTokenAAmount` of `Pool.ts` lines 114-117 (identity). -/
def Pool.getPoolTokenValueOfTokenAAmount (p : Pool) (tokenAAmount : ℚ) : ℚ :=
  tokenAAmount

/-- Function `getPoolTokenValueOfTokenBAmount` of `Pool.ts` lines 119-123. -/
def Pool.getPoolTokenValueOfTokenBAmount (p : Pool) (tokenBAmount : ℚ) : ℚ :=
  p.getPoolTokenValueOfTokenAAmount (p.getTokenAValueOfPoolTokenAmount tokenBAmount)

/-- Modelled from the spec: the serialized token, mirroring
`SerializableToken`.  `Token.ts` is not under `src/`; per spec §1
serialization is "a thin boundary adapter" that round-trips the fields. -/
structure SerializableToken where
  address : Nat
deriving DecidableEq

/-- Modelled from the spec: the serialized token account, mirroring
`SerializableTokenAccount`; as for `SerializableToken`. -/
structure SerializableTokenAccount where
  mint : SerializableToken
  balance : ℚ
deriving DecidableEq

/-- Type `SerializablePool` of `Pool.ts` lines 7-16. -/
structure SerializablePool where
  address : Nat
  tokenA : SerializableTokenAccount
  tokenB : SerializableTokenAccount
  poolToken : SerializableToken
  programId : Nat
  nonce : Nat
  feeRatio : ℚ
deriving DecidableEq

/-- Modelled from the spec: `Token.serialize` (not under `src/`), the
round-trip adapter for an asset identifier. -/
def Token.serialize (t : Token) : SerializableToken :=
  ⟨t.address⟩

/-- Modelled from the spec: `Token.from` (not under `src/`), inverse of
`Token.serialize`.  Named `from'` because `from` is reserved in Lean. -/
def Token.from' (s : SerializableToken) : Token :=
  ⟨s.address⟩

/-- Modelled from the spec: `TokenAccount.serialize` (not under `src/`). -/
def TokenAccount.serialize (t : TokenAccount) : SerializableTokenAccount :=
  ⟨t.mint.serialize, t.balance⟩

/-- Modelled from the spec: `TokenAccount.from` (not under `src/`). -/
def TokenAccount.from' (s : SerializableTokenAccount) : TokenAccount :=
  ⟨Token.from' s.mint, s.balance⟩

/-- Method `serialize` of `Pool.ts` lines 152-162. -/
def Pool.serialize (p : Pool) : SerializablePool :=
  { address := p.address.toBase58
    tokenA := p.tokenA.serialize
    tokenB := p.tokenB.serialize
    poolToken := p.poolToken.serialize
    programId := p.programId.toBase58
    nonce := p.nonce
    feeRatio := p.feeRatio }

/-- Static method `from` of `Pool.ts` lines 164-174.  Named `from'` because `from`
is reserved in Lean. -/
def Pool.from' (s : SerializablePool) : Pool :=
  { address := PublicKey.ofBase58 s.address
    tokenA := TokenAccount.from' s.tokenA
    tokenB := TokenAccount.from' s.tokenB
    poolToken := Token.from' s.poolToken
    programId := PublicKey.ofBase58 s.programId
    nonce := s.nonce
    feeRatio := s.feeRatio }

/-! Section: Concrete fixtures for witnesses and counterexamples -/

def mintA : Token := ⟨1⟩

def mintB : Token := ⟨2⟩

def mintOther : Token := ⟨3⟩

def poolTokenMint : Token := ⟨4⟩

/-- A pool snapshot with the given reserves and fee ratio, token A minted
at address 1 and token B at address 2. -/
def mkPool (balanceA balanceB fee : ℚ) : Pool :=
  { address := ⟨100⟩
    tokenA := ⟨mintA, balanceA⟩
    tokenB := ⟨mintB, balanceB⟩
    poolToken := poolTokenMint
    programId := ⟨200⟩
    nonce := 255
    feeRatio := fee }

/-- The pool snapshot after a forward swap of `Δ` units of A producing `b`
units of B, as the spec describes it ("reserves conceptually become
`(fromReserve + Δ, toReserve − b)` for the next snapshot", §8): same mints
and fee, updated balances. -/
def updatePool (p : Pool) (Δ : ℚ) (b : ℤ) : Pool :=
  { p with
    tokenA := { p.tokenA with balance := p.tokenA.balance + Δ }
    tokenB := { p.tokenB with balance := p.tokenB.balance - (b : ℚ) } }

/-- The swap-output formula in the words of the spec (§4.1 algorithm,
claim C1): `invariant = fromReserve * toReserve`,
`newFromReserve = fromReserve + inputAmount`,
`newToReserve = invariant / newFromReserve` with exact division,
`grossOutput = ceiling(toReserve - newToReserve)`,
`fee = floor(grossOutput * feeRatio)`, result `grossOutput - fee`.
Stated separately from the embedding so that the correspondence is a
theorem, not a definition. -/
def swapOutputSpec (fromReserve toReserve feeRatio inputAmount : ℚ) : ℤ :=
  let invariant := fromReserve * toReserve
  let newFromReserve := fromReserve + inputAmount
  let newToReserve := invariant / newFromReserve
  let grossOutput := ⌈toReserve - newToReserve⌉
  let fee := ⌊(grossOutput : ℚ) * feeRatio⌋
  grossOutput - fee

/-! Section: Helper lemmas about the embedding -/

theorem Token.equals_self (t : Token) : t.equals t = true := by
  simp [Token.equals]

theorem Token.equals_comm (a b : Token) : a.equals b = b.equals a := by
  rcases eq_or_ne a.address b.address with h | h
  · simp [Token.equals, h]
  · simp [Token.equals, h, Ne.symm h]

/-- Unfolding lemma: the gross output is a ceiling of the exact reserve drop. -/
theorem grossToAmount_eq (F T Δ : ℚ) :
    grossToAmount F T Δ = ⌈T - F * T / (F + Δ)⌉ := rfl

/-- Unfolding lemma: the net output is the gross output minus the floored fee. -/
theorem netToAmount_eq (F T f Δ : ℚ) :
    netToAmount F T f Δ =
      grossToAmount F T Δ - ⌊(grossToAmount F T Δ : ℚ) * f⌋ := rfl

/-- Evaluation of the swap in the forward (A-to-B) direction. -/
theorem calc_forward (p : Pool) (tok : Token) (Δ : ℚ)
    (h1 : tok.equals p.tokenA.mint = true)
    (h2 : p.tokenB.mint.equals tok = false) :
    p.calculateAmountInOtherToken tok Δ =
      Except.ok (netToAmount p.tokenA.balance p.tokenB.balance p.feeRatio Δ) := by
  simp [Pool.calculateAmountInOtherToken, h1, h2]

/-- Evaluation of the swap in the reverse (B-to-A) direction. -/
theorem calc_reverse (p : Pool) (tok : Token) (Δ : ℚ)
    (h : p.tokenB.mint.equals tok = true) :
    p.calculateAmountInOtherToken tok Δ =
      Except.ok (netToAmount p.tokenB.balance p.tokenA.balance p.feeRatio Δ) := by
  have h' : tok.equals p.tokenB.mint = true := by
    rw [Token.equals_comm]; exact h
  simp [Pool.calculateAmountInOtherToken, h, h']

/-- Evaluation of the swap when the input token matches neither mint. -/
theorem calc_invalid (p : Pool) (tok : Token) (Δ : ℚ)
    (h1 : tok.equals p.tokenA.mint = false)
    (h2 : tok.equals p.tokenB.mint = false) :
    p.calculateAmountInOtherToken tok Δ = Except.error PoolError.InvalidAsset := by
  simp [Pool.calculateAmountInOtherToken, h1, h2]

/-- Gross output of the spec's concrete scenario: `⌈2000 − 2000000/1005⌉ = 10`. -/
theorem grossToAmount_scenario1 : grossToAmount 1000 2000 5 = 10 := by
  rw [grossToAmount_eq, Int.ceil_eq_iff] <;> norm_num

/-- Net output of the spec's concrete scenario: `10 − ⌊10/4⌋ = 8`. -/
theorem netToAmount_scenario1 : netToAmount 1000 2000 (1/4) 5 = 8 := by
  rw [netToAmount_eq, grossToAmount_scenario1]
  norm_num

/-- Gross output of the spec's continuation scenario:
`⌈1005 − 1005·1992/1997⌉ = 3`. -/
theorem grossToAmount_scenario2 : grossToAmount 1992 1005 5 = 3 := by
  rw [grossToAmount_eq, Int.ceil_eq_iff] <;> norm_num

/-- Net output of the spec's continuation scenario: `3 − ⌊3/4⌋ = 3`. -/
theorem netToAmount_scenario2 : netToAmount 1992 1005 (1/4) 5 = 3 := by
  rw [netToAmount_eq, grossToAmount_scenario2]
  norm_num

/-- C3: the pool (1000, 2000, fee 1/4) answers `swapOutput(A, 5) = 8`, and the
continuation pool (1005, 1992, fee 1/4) answers `swapOutput(B, 5) = 3`. -/
theorem swapOutput_concrete_scenario :
    (mkPool 1000 2000 (1/4)).calculateAmountInOtherToken mintA 5 = Except.ok 8 ∧
    (mkPool 1005 1992 (1/4)).calculateAmountInOtherToken mintB 5 = Except.ok 3 := by
  constructor
  · rw [calc_forward _ _ _ (by decide) (by decide)]
    exact congrArg Except.ok netToAmount_scenario1
  · rw [calc_reverse _ _ _ (by decide)]
    exact congrArg Except.ok netToAmount_scenario2

/-! Section: The claims -/

/-- C1: whenever the input asset is pool asset B (reverse direction) or pool
asset A (forward direction), `calculateAmountInOtherToken` succeeds and
returns exactly the spec formula `swapOutputSpec` applied to
(fromReserve, toReserve) — the reserves swapped in the reverse direction. -/
theorem swapOutput_matches_spec_formula (p : Pool) (inputToken : Token)
    (inputAmount : ℚ) (hΔ : 0 ≤ inputAmount) :
    (p.tokenB.mint.equals inputToken = true →
      p.calculateAmountInOtherToken inputToken inputAmount =
        Except.ok (swapOutputSpec p.tokenB.balance p.tokenA.balance
          p.feeRatio inputAmount)) ∧
    (inputToken.equals p.tokenA.mint = true →
      p.tokenB.mint.equals inputToken = false →
      p.calculateAmountInOtherToken inputToken inputAmount =
        Except.ok (swapOutputSpec p.tokenA.balance p.tokenB.balance
          p.feeRatio inputAmount)) := by
  constructor
  · intro h
    rw [calc_reverse p inputToken inputAmount h]
    rfl
  · intro h1 h2
    rw [calc_forward p inputToken inputAmount h1 h2]
    rfl

/-- Witness for C1: on the pool (1000, 2000, fee 1/4) the forward swap of 5
units of A returns exactly the spec formula value. -/
theorem swapOutput_matches_spec_formula_witness :
    (mkPool 1000 2000 (1/4)).calculateAmountInOtherToken mintA 5 =
      Except.ok (swapOutputSpec 1000 2000 (1/4) 5) :=
  (swapOutput_matches_spec_formula (mkPool 1000 2000 (1/4)) mintA 5
    (by norm_num)).2 (by decide) (by decide)

theorem mkPool_tokenA_balance (a b f : ℚ) : (mkPool a b f).tokenA.balance = a := rfl

theorem mkPool_tokenB_balance (a b f : ℚ) : (mkPool a b f).tokenB.balance = b := rfl

theorem mkPool_feeRatio (a b f : ℚ) : (mkPool a b f).feeRatio = f := rfl

/-- C2 counterexample: on a pool whose A reserve is zero, the code performs
no empty-pool check — `swapOutput(A, 5)` returns the numeric value 1500
(= 2000 − ⌊2000·(1/4)⌋) instead of failing; in particular it does not fail
with the only error the code can raise. -/
theorem swapOutput_zero_reserve_counterexample :
    (mkPool 0 2000 (1/4)).calculateAmountInOtherToken mintA 5 = Except.ok 1500 ∧
    (mkPool 0 2000 (1/4)).calculateAmountInOtherToken mintA 5 ≠
      Except.error PoolError.InvalidAsset := by
  have h : (mkPool 0 2000 (1/4)).calculateAmountInOtherToken mintA 5 =
      Except.ok 1500 := by
    rw [calc_forward _ _ _ (by decide) (by decide)]
    have hg : grossToAmount 0 2000 5 = 2000 := by
      rw [grossToAmount_eq]; norm_num
    rw [show (mkPool 0 2000 (1/4)).tokenA.balance = 0 from rfl,
      show (mkPool 0 2000 (1/4)).tokenB.balance = 2000 from rfl,
      show (mkPool 0 2000 (1/4)).feeRatio = 1/4 from rfl,
      netToAmount_eq, hg]
    norm_num
  exact ⟨h, by rw [h]; exact fun hc => Except.noConfusion hc⟩

/-- C2 amended: `calculateAmountInOtherToken` contains no empty-pool check.
Whichever side the input asset selects — reserve A in the forward
direction, reserve B in the reverse direction — when that input-side
reserve is zero and the input amount is positive, the call succeeds and
returns `⌈toReserve⌉ − ⌊⌈toReserve⌉·feeRatio⌋` — the whole opposite
reserve minus the fee — rather than failing with an `EmptyPool` error (no
such error exists in the code). -/
theorem swapOutput_zero_reserve_returns_numeric (p : Pool) (tok : Token)
    (Δ : ℚ) (hΔ : 0 < Δ) :
    (tok.equals p.tokenA.mint = true → p.tokenB.mint.equals tok = false →
      p.tokenA.balance = 0 →
      p.calculateAmountInOtherToken tok Δ =
        Except.ok (⌈p.tokenB.balance⌉ -
          ⌊(⌈p.tokenB.balance⌉ : ℚ) * p.feeRatio⌋)) ∧
    (p.tokenB.mint.equals tok = true → p.tokenB.balance = 0 →
      p.calculateAmountInOtherToken tok Δ =
        Except.ok (⌈p.tokenA.balance⌉ -
          ⌊(⌈p.tokenA.balance⌉ : ℚ) * p.feeRatio⌋)) := by
  constructor
  · intro hA hrev hzero
    rw [calc_forward p tok Δ hA hrev, hzero, netToAmount_eq, grossToAmount_eq]
    norm_num
  · intro hrev hzero
    rw [calc_reverse p tok Δ hrev, hzero, netToAmount_eq, grossToAmount_eq]
    norm_num

/-- Witness for the amended C2: the A-side-empty pool (0, 2000, fee 1/4)
with input 5 of A and the B-side-empty pool (1000, 0, fee 1/4) with input
5 of B both return a numeric value. -/
theorem swapOutput_zero_reserve_returns_numeric_witness :
    (mkPool 0 2000 (1/4)).calculateAmountInOtherToken mintA 5 =
      Except.ok (⌈(2000 : ℚ)⌉ - ⌊(⌈(2000 : ℚ)⌉ : ℚ) * (1/4)⌋) ∧
    (mkPool 1000 0 (1/4)).calculateAmountInOtherToken mintB 5 =
      Except.ok (⌈(1000 : ℚ)⌉ - ⌊(⌈(1000 : ℚ)⌉ : ℚ) * (1/4)⌋) :=
  ⟨(swapOutput_zero_reserve_returns_numeric (mkPool 0 2000 (1/4)) mintA 5
      (by norm_num)).1 (by decide) (by decide) rfl,
   (swapOutput_zero_reserve_returns_numeric (mkPool 1000 0 (1/4)) mintB 5
      (by norm_num)).2 (by decide) rfl⟩

/-- C7: an input token equal to neither pool mint makes
`calculateAmountInOtherToken` fail with `InvalidAsset`, for any amount
(including 0). -/
theorem swapOutput_invalid_asset (p : Pool) (tok : Token) (Δ : ℚ)
    (hΔ : 0 ≤ Δ) (h1 : tok.equals p.tokenA.mint = false)
    (h2 : tok.equals p.tokenB.mint = false) :
    p.calculateAmountInOtherToken tok Δ = Except.error PoolError.InvalidAsset :=
  calc_invalid p tok Δ h1 h2

/-- Witness for C7: a third mint is rejected at input amount 0. -/
theorem swapOutput_invalid_asset_witness :
    (mkPool 1000 2000 (1/4)).calculateAmountInOtherToken mintOther 0 =
      Except.error PoolError.InvalidAsset :=
  swapOutput_invalid_asset (mkPool 1000 2000 (1/4)) mintOther 0 le_rfl
    (by decide) (by decide)

/-- C8: `simpleRate` returns `reserveB / reserveA` when `reserveA > 0` and
`0` when `reserveA = 0`. -/
theorem simpleRate_spec (p : Pool) :
    (0 < p.tokenA.balance →
      p.simpleRate = p.tokenB.balance / p.tokenA.balance) ∧
    (p.tokenA.balance = 0 → p.simpleRate = 0) := by
  constructor
  · intro h
    simp [Pool.simpleRate, h]
  · intro h
    simp [Pool.simpleRate, h]

/-- Witness for C8: the pool (1000, 2000) has rate 2000/1000; the pool
(0, 2000) has rate 0. -/
theorem simpleRate_spec_witness :
    (mkPool 1000 2000 (1/4)).simpleRate = 2000 / 1000 ∧
    (mkPool 0 2000 (1/4)).simpleRate = 0 :=
  ⟨(simpleRate_spec (mkPool 1000 2000 (1/4))).1
     (by rw [mkPool_tokenA_balance]; norm_num),
   (simpleRate_spec (mkPool 0 2000 (1/4))).2 rfl⟩

/-- C9: `getPoolTokenValueOfTokenBAmount` is the stated composition, and the
composition collapses to the identity; `getTokenAValueOfPoolTokenAmount` and
`getPoolTokenValueOfTokenAAmount` are each the identity, independent of the
reserves and fee ratio. -/
theorem poolTokenValueOfTokenB_identity (p : Pool) (n : ℚ) :
    p.getPoolTokenValueOfTokenBAmount n =
        p.getPoolTokenValueOfTokenAAmount (p.getTokenAValueOfPoolTokenAmount n) ∧
    p.getTokenAValueOfPoolTokenAmount n = n ∧
    p.getPoolTokenValueOfTokenAAmount n = n ∧
    p.getPoolTokenValueOfTokenBAmount n = n :=
  ⟨rfl, rfl, rfl, rfl⟩

/-- C10: deserializing a serialized pool restores every field: address,
tokenA, tokenB, poolToken, programId, nonce and feeRatio. -/
theorem pool_serialize_round_trip (p : Pool) :
    (Pool.from' p.serialize).address = p.address ∧
    (Pool.from' p.serialize).tokenA = p.tokenA ∧
    (Pool.from' p.serialize).tokenB = p.tokenB ∧
    (Pool.from' p.serialize).poolToken = p.poolToken ∧
    (Pool.from' p.serialize).programId = p.programId ∧
    (Pool.from' p.serialize).nonce = p.nonce ∧
    (Pool.from' p.serialize).feeRatio = p.feeRatio :=
  ⟨rfl, rfl, rfl, rfl, rfl, rfl, rfl⟩

/-! Section: Nonnegativity and bounds for the gross output -/

/-- With nonnegative reserves and input the gross output is nonnegative:
the pool never quotes a negative amount out. -/
theorem grossToAmount_nonneg (F T Δ : ℚ) (hF : 0 ≤ F) (hT : 0 ≤ T)
    (hΔ : 0 ≤ Δ) : 0 ≤ grossToAmount F T Δ := by
  rw [grossToAmount_eq]
  apply Int.ceil_nonneg
  rcases eq_or_lt_of_le (add_nonneg hF hΔ) with h | h
  · rw [← h, div_zero]
    simpa using hT
  · have hdiv : F * T / (F + Δ) ≤ T := by
      rw [div_le_iff h]
      nlinarith
    linarith

/-- Two-sided bound forced by the ceiling step: with `g` the gross output,
the post-swap product `(F+Δ)·(T−g)` sits within `F+Δ` below the original
product `F·T`, never above it. -/
theorem gross_product_bounds (F T Δ : ℚ) (hF : 0 < F) (hΔ : 0 ≤ Δ) :
    0 ≤ F * T - (F + Δ) * (T - (grossToAmount F T Δ : ℚ)) ∧
    F * T - (F + Δ) * (T - (grossToAmount F T Δ : ℚ)) < F + Δ := by
  have hpos : (0 : ℚ) < F + Δ := by linarith
  have hne : F + Δ ≠ 0 := ne_of_gt hpos
  have hcancel : F * T / (F + Δ) * (F + Δ) = F * T := div_mul_cancel₀ _ hne
  have h1 : T - F * T / (F + Δ) ≤ ((⌈T - F * T / (F + Δ)⌉ : ℤ) : ℚ) :=
    Int.le_ceil _
  have h2 : ((⌈T - F * T / (F + Δ)⌉ : ℤ) : ℚ) < T - F * T / (F + Δ) + 1 :=
    Int.ceil_lt_add_one _
  rw [grossToAmount_eq]
  constructor
  · nlinarith [mul_le_mul_of_nonneg_left h1 hpos.le]
  · nlinarith [mul_le_mul_of_nonneg_left (le_of_lt h2) hpos.le]

/-- The floored fee is nonnegative whenever the gross output and the fee
ratio are, so the net output never exceeds the gross output. -/
theorem netToAmount_le_gross (F T f Δ : ℚ) (hg : 0 ≤ grossToAmount F T Δ)
    (hf : 0 ≤ f) : netToAmount F T f Δ ≤ grossToAmount F T Δ := by
  rw [netToAmount_eq]
  have : (0 : ℤ) ≤ ⌊(grossToAmount F T Δ : ℚ) * f⌋ :=
    Int.floor_nonneg.mpr (mul_nonneg (by exact_mod_cast hg) hf)
  omega

/-- C4 counterexample: at reserves (1000, 2000) and input 5 the post-swap
product `1005·(2000−10) = 1999950` differs from the original product
`2000000` by 50, so it does not equal it "within a rounding tolerance of 1
unit" of the product. -/
theorem swap_invariant_unit_tolerance_counterexample :
    ¬ |(1000 + 5 : ℚ) * (2000 - (grossToAmount 1000 2000 5 : ℚ)) -
        1000 * 2000| ≤ 1 := by
  rw [grossToAmount_scenario1]
  norm_num

/-- C4 amended: for positive reserves, nonnegative input and fee ratio, the
post-swap product `(A+Δ)·(B−g)` equals the original product `A·B` within
one unit of the destination reserve — the deficit lies in `[0, A+Δ)`, not
in `[−1, 1]` — and the returned net output is at most the gross output. -/
theorem swap_invariant_preservation (p : Pool) (Δ : ℚ)
    (hA : 0 < p.tokenA.balance) (hB : 0 < p.tokenB.balance) (hΔ : 0 ≤ Δ)
    (hf : 0 ≤ p.feeRatio)
    (hmint : p.tokenB.mint.equals p.tokenA.mint = false) :
    0 ≤ p.tokenA.balance * p.tokenB.balance -
        (p.tokenA.balance + Δ) *
          (p.tokenB.balance - (grossToAmount p.tokenA.balance p.tokenB.balance Δ : ℚ)) ∧
    p.tokenA.balance * p.tokenB.balance -
        (p.tokenA.balance + Δ) *
          (p.tokenB.balance - (grossToAmount p.tokenA.balance p.tokenB.balance Δ : ℚ)) <
      p.tokenA.balance + Δ ∧
    ∀ r : ℤ, p.calculateAmountInOtherToken p.tokenA.mint Δ = Except.ok r →
      r ≤ grossToAmount p.tokenA.balance p.tokenB.balance Δ := by
  obtain ⟨hlow, hhigh⟩ := gross_product_bounds p.tokenA.balance p.tokenB.balance Δ hA hΔ
  refine ⟨hlow, hhigh, ?_⟩
  intro r hr
  rw [calc_forward p p.tokenA.mint Δ (Token.equals_self _) hmint] at hr
  have hr' : netToAmount p.tokenA.balance p.tokenB.balance p.feeRatio Δ = r :=
    Except.ok.inj hr
  rw [← hr']
  exact netToAmount_le_gross _ _ _ _
    (grossToAmount_nonneg _ _ _ hA.le hB.le hΔ) hf

/-- Witness for the amended C4 at the pool (1000, 2000, fee 1/4), input 5:
the product deficit is in `[0, 1005)` and the net output 8 is at most the
gross output. -/
theorem swap_invariant_preservation_witness :
    0 ≤ (1000 : ℚ) * 2000 - (1000 + 5) * (2000 - (grossToAmount 1000 2000 5 : ℚ)) ∧
    (1000 : ℚ) * 2000 - (1000 + 5) * (2000 - (grossToAmount 1000 2000 5 : ℚ)) <
      1000 + 5 ∧
    (8 : ℤ) ≤ grossToAmount 1000 2000 5 := by
  obtain ⟨h1, h2, h3⟩ := swap_invariant_preservation (mkPool 1000 2000 (1/4)) 5
    (by rw [mkPool_tokenA_balance]; norm_num)
    (by rw [mkPool_tokenB_balance]; norm_num)
    (by norm_num)
    (by rw [mkPool_feeRatio]; norm_num)
    (by decide)
  refine ⟨h1, h2, h3 8 ?_⟩
  rw [calc_forward _ _ _ (by decide) (by decide)]
  exact congrArg Except.ok netToAmount_scenario1

/-- Monotonicity of the net output in the fee ratio, at fixed reserves and
input: a larger fee ratio floors off at least as much. -/
theorem netToAmount_fee_mono (F T Δ f1 f2 : ℚ) (hg : 0 ≤ grossToAmount F T Δ)
    (h12 : f1 ≤ f2) : netToAmount F T f2 Δ ≤ netToAmount F T f1 Δ := by
  rw [netToAmount_eq, netToAmount_eq]
  have hfloor : ⌊(grossToAmount F T Δ : ℚ) * f1⌋ ≤ ⌊(grossToAmount F T Δ : ℚ) * f2⌋ :=
    Int.floor_mono (mul_le_mul_of_nonneg_left h12 (by exact_mod_cast hg))
  omega

/-- C6: for fixed nonnegative reserves, a fixed valid input asset and fixed
nonnegative input amount, the swap output is non-increasing in the fee
ratio: with `f1 ≤ f2` in `[0, 1)` the output at `f2` is at most the output
at `f1`. -/
theorem swapOutput_fee_monotone (p : Pool) (tok : Token) (Δ f1 f2 : ℚ)
    (hA : 0 ≤ p.tokenA.balance) (hB : 0 ≤ p.tokenB.balance) (hΔ : 0 ≤ Δ)
    (hf1 : 0 ≤ f1) (h12 : f1 ≤ f2) (hf2 : f2 < 1)
    (hvalid : (tok.equals p.tokenA.mint || tok.equals p.tokenB.mint) = true) :
    ∀ r1 r2 : ℤ,
      ({ p with feeRatio := f1 } : Pool).calculateAmountInOtherToken tok Δ =
        Except.ok r1 →
      ({ p with feeRatio := f2 } : Pool).calculateAmountInOtherToken tok Δ =
        Except.ok r2 →
      r2 ≤ r1 := by
  intro r1 r2 h1 h2
  by_cases hrev : p.tokenB.mint.equals tok = true
  · rw [calc_reverse ({ p with feeRatio := f1 }) tok Δ hrev] at h1
    rw [calc_reverse ({ p with feeRatio := f2 }) tok Δ hrev] at h2
    have e1 : netToAmount p.tokenB.balance p.tokenA.balance f1 Δ = r1 :=
      Except.ok.inj h1
    have e2 : netToAmount p.tokenB.balance p.tokenA.balance f2 Δ = r2 :=
      Except.ok.inj h2
    rw [← e1, ← e2]
    exact netToAmount_fee_mono _ _ _ _ _
      (grossToAmount_nonneg _ _ _ hB hA hΔ) h12
  · have hrev' : p.tokenB.mint.equals tok = false := by
      simpa using hrev
    have htokA : tok.equals p.tokenA.mint = true := by
      have hvalid' : tok.equals p.tokenA.mint = true ∨ tok.equals p.tokenB.mint = true := by
        simpa using hvalid
      rcases hvalid' with h | h
      · exact h
      · rw [Token.equals_comm] at h
        rw [h] at hrev'
        exact absurd hrev' (by simp)
    rw [calc_forward ({ p with feeRatio := f1 }) tok Δ htokA hrev'] at h1
    rw [calc_forward ({ p with feeRatio := f2 }) tok Δ htokA hrev'] at h2
    have e1 : netToAmount p.tokenA.balance p.tokenB.balance f1 Δ = r1 :=
      Except.ok.inj h1
    have e2 : netToAmount p.tokenA.balance p.tokenB.balance f2 Δ = r2 :=
      Except.ok.inj h2
    rw [← e1, ← e2]
    exact netToAmount_fee_mono _ _ _ _ _
      (grossToAmount_nonneg _ _ _ hA hB hΔ) h12

/-- Fee-free net output of the concrete scenario: with `feeRatio = 0` the
net output equals the gross output 10. -/
theorem netToAmount_scenario1_fee0 : netToAmount 1000 2000 0 5 = 10 := by
  rw [netToAmount_eq, grossToAmount_scenario1]
  norm_num

/-- Witness for C6: on the pool (1000, 2000) with input 5 of A, the output
at fee 1/4 (namely 8) is at most the output at fee 0 (namely 10). -/
theorem swapOutput_fee_monotone_witness : (8 : ℤ) ≤ 10 := by
  refine swapOutput_fee_monotone (mkPool 1000 2000 0) mintA 5 0 (1/4)
    (by rw [mkPool_tokenA_balance]; norm_num)
    (by rw [mkPool_tokenB_balance]; norm_num)
    (by norm_num) le_rfl (by norm_num) (by norm_num) (by decide) 10 8 ?_ ?_
  · rw [calc_forward _ _ _ (by decide) (by decide)]
    exact congrArg Except.ok netToAmount_scenario1_fee0
  · rw [calc_forward _ _ _ (by decide) (by decide)]
    exact congrArg Except.ok netToAmount_scenario1

/-- Fee-free net output of the reverse leg of the round trip: on reserves
(1990, 1005) an input of 10 units of B buys `⌈1005 − 1999950/2000⌉ = 6`
units of A. -/
theorem netToAmount_roundtrip_fee0 :
    netToAmount (2000 - ((10 : ℤ) : ℚ)) (1000 + 5) 0 ((10 : ℤ) : ℚ) = 6 := by
  have hg : grossToAmount (2000 - ((10 : ℤ) : ℚ)) (1000 + 5) ((10 : ℤ) : ℚ) = 6 := by
    rw [grossToAmount_eq, Int.ceil_eq_iff] <;> push_cast <;> norm_num
  rw [netToAmount_eq, hg]
  norm_num

/-- C5 counterexample: on the fee-free pool (1000, 2000), swapping 5 units
of A yields b = 10 units of B; swapping those 10 units of B back on the
updated snapshot (1005, 1990) yields 6 units of A — strictly more than the
5 put in, so rounding does create value on a round trip. -/
theorem swap_round_trip_counterexample :
    (mkPool 1000 2000 0).calculateAmountInOtherToken mintA 5 = Except.ok 10 ∧
    (updatePool (mkPool 1000 2000 0) 5 10).calculateAmountInOtherToken mintB
      ((10 : ℤ) : ℚ) = Except.ok 6 ∧
    ¬ ((6 : ℤ) ≤ 5) := by
  refine ⟨?_, ?_, by norm_num⟩
  · rw [calc_forward _ _ _ (by decide) (by decide)]
    exact congrArg Except.ok netToAmount_scenario1_fee0
  · rw [calc_reverse _ _ _ (by decide)]
    exact congrArg Except.ok netToAmount_roundtrip_fee0

/-- C5 amended: with positive reserves, nonnegative input and a fee ratio
in `[0, 1]`, a round trip (swap `Δ` of A for `b` of B, then the `b` of B
back for A on the updated snapshot) returns at most
`⌈Δ⌉ + ⌈(A+Δ)/B⌉` — the input plus the slack of the two ceiling steps —
rather than at most `Δ` (the counterexample attains `Δ + 1`). -/
theorem swap_round_trip_bound (p : Pool) (Δ : ℚ) (b r : ℤ)
    (hA : 0 < p.tokenA.balance) (hB : 0 < p.tokenB.balance) (hΔ : 0 ≤ Δ)
    (hf0 : 0 ≤ p.feeRatio) (hf1 : p.feeRatio ≤ 1)
    (hmint : p.tokenB.mint.equals p.tokenA.mint = false)
    (h1 : p.calculateAmountInOtherToken p.tokenA.mint Δ = Except.ok b)
    (h2 : (updatePool p Δ b).calculateAmountInOtherToken p.tokenB.mint (b : ℚ) =
      Except.ok r) :
    r ≤ ⌈Δ⌉ + ⌈(p.tokenA.balance + Δ) / p.tokenB.balance⌉ := by
  rw [calc_forward p p.tokenA.mint Δ (Token.equals_self _) hmint] at h1
  have hb : b = netToAmount p.tokenA.balance p.tokenB.balance p.feeRatio Δ :=
    (Except.ok.inj h1).symm
  rw [calc_reverse (updatePool p Δ b) p.tokenB.mint (b : ℚ)
    (Token.equals_self _)] at h2
  have hr : r = netToAmount (p.tokenB.balance - (b : ℚ)) (p.tokenA.balance + Δ)
      p.feeRatio (b : ℚ) := (Except.ok.inj h2).symm
  set A := p.tokenA.balance with hA_def
  set B := p.tokenB.balance with hB_def
  set f := p.feeRatio with hf_def
  have hApos : (0 : ℚ) < A + Δ := by linarith
  have hBne : B ≠ 0 := ne_of_gt hB
  have hg1eq : grossToAmount A B Δ = ⌈B - A * B / (A + Δ)⌉ := grossToAmount_eq A B Δ
  have hg1_nonneg : 0 ≤ grossToAmount A B Δ :=
    grossToAmount_nonneg A B Δ hA.le hB.le hΔ
  have hfee1_nonneg : 0 ≤ ⌊(grossToAmount A B Δ : ℚ) * f⌋ :=
    Int.floor_nonneg.mpr (mul_nonneg (by exact_mod_cast hg1_nonneg) hf0)
  have hg1_cast : (0 : ℚ) ≤ ((grossToAmount A B Δ : ℤ) : ℚ) := by
    exact_mod_cast hg1_nonneg
  have hfee1_le : ⌊(grossToAmount A B Δ : ℚ) * f⌋ ≤ grossToAmount A B Δ := by
    have h := Int.floor_mono (mul_le_of_le_one_right hg1_cast hf1)
    rwa [Int.floor_intCast] at h
  rw [netToAmount_eq] at hb
  have hb_nonneg : 0 ≤ b := by omega
  have hb_le : b ≤ grossToAmount A B Δ := by omega
  have hb_lt : (b : ℚ) < B - A * B / (A + Δ) + 1 := by
    have hc : ((grossToAmount A B Δ : ℤ) : ℚ) < B - A * B / (A + Δ) + 1 := by
      rw [hg1eq]
      exact Int.ceil_lt_add_one _
    have hcast : (b : ℚ) ≤ ((grossToAmount A B Δ : ℤ) : ℚ) := by
      exact_mod_cast hb_le
    linarith
  have hsimp : B - (b : ℚ) + (b : ℚ) = B := by ring
  have hg2eq : grossToAmount (B - (b : ℚ)) (A + Δ) ((b : ℤ) : ℚ) =
      ⌈(A + Δ) * ((b : ℤ) : ℚ) / B⌉ := by
    rw [grossToAmount_eq]
    congr 1
    rw [hsimp]
    field_simp
    ring
  have hg2_nonneg : 0 ≤ grossToAmount (B - (b : ℚ)) (A + Δ) ((b : ℤ) : ℚ) := by
    rw [hg2eq]
    apply Int.ceil_nonneg
    exact div_nonneg (mul_nonneg hApos.le (by exact_mod_cast hb_nonneg)) hB.le
  have hr_le_g2 : r ≤ grossToAmount (B - (b : ℚ)) (A + Δ) ((b : ℤ) : ℚ) := by
    rw [hr]
    exact netToAmount_le_gross _ _ _ _ hg2_nonneg hf0
  have hkey : (A + Δ) * ((b : ℤ) : ℚ) / B < Δ + (A + Δ) / B := by
    rw [div_lt_iff hB]
    have hexp : (Δ + (A + Δ) / B) * B = Δ * B + (A + Δ) := by
      field_simp
    rw [hexp]
    have hmul := mul_lt_mul_of_pos_left hb_lt hApos
    have hcancel : (A + Δ) * (A * B / (A + Δ)) = A * B := by
      field_simp
    nlinarith [hmul, hcancel]
  have hceil : grossToAmount (B - (b : ℚ)) (A + Δ) ((b : ℤ) : ℚ) ≤
      ⌈Δ + (A + Δ) / B⌉ := by
    rw [hg2eq]
    exact Int.ceil_mono (le_of_lt hkey)
  have hsplit : ⌈Δ + (A + Δ) / B⌉ ≤ ⌈Δ⌉ + ⌈(A + Δ) / B⌉ := Int.ceil_add_le Δ _
  omega

/-- Reverse leg of the fee-1/4 round trip: on reserves (1992, 1005) an
input of 8 units of B buys gross `⌈1005 − 2001960/2000⌉ = 5`, fee
`⌊5/4⌋ = 1`, net 4 units of A. -/
theorem netToAmount_roundtrip_quarter :
    netToAmount (2000 - ((8 : ℤ) : ℚ)) (1000 + 5) (1/4) ((8 : ℤ) : ℚ) = 4 := by
  have hg : grossToAmount (2000 - ((8 : ℤ) : ℚ)) (1000 + 5) ((8 : ℤ) : ℚ) = 5 := by
    rw [grossToAmount_eq, Int.ceil_eq_iff] <;> push_cast <;> norm_num
  rw [netToAmount_eq, hg]
  norm_num

/-- Witness for the amended C5: the fee-1/4 round trip from (1000, 2000)
with input 5 returns 4, within the bound `⌈5⌉ + ⌈1005/2000⌉ = 6`. -/
theorem swap_round_trip_bound_witness :
    (4 : ℤ) ≤ ⌈(5 : ℚ)⌉ + ⌈((1000 : ℚ) + 5) / 2000⌉ := by
  refine swap_round_trip_bound (mkPool 1000 2000 (1/4)) 5 8 4
    (by rw [mkPool_tokenA_balance]; norm_num)
    (by rw [mkPool_tokenB_balance]; norm_num)
    (by norm_num)
    (by rw [mkPool_feeRatio]; norm_num)
    (by rw [mkPool_feeRatio]; norm_num)
    (by decide) ?_ ?_
  · rw [calc_forward _ _ _ (by decide) (by decide)]
    exact congrArg Except.ok netToAmount_scenario1
  · rw [calc_reverse _ _ _ (by decide)]
    exact congrArg Except.ok netToAmount_roundtrip_quarter
